import Mathlib

/-!
# DailyWhy heuristic decision engine — verification development

Shallow embedding of the two pipelines specified for the DailyWhy
repository:

* the local decision-analysis pipeline (`localAnalyzeDecision` in the
  Supabase AI client module): per-option keyword scoring, low-spread score
  reassignment, stable descending sort, dense rank assignment, confidence
  from final score spread, and the recommended-action lookup;
* the weekly metrics analyzer (`insights-engine`): `calculateFatigueScore`,
  `analyzeBiases`, and the category part of `generateInsightsFromMetrics`.

Modelling conventions:

* JS numbers that are only ever integers in these code paths (option
  scores, which start at 50 and change by integer steps before an integer
  clamp, so `Math.round` is the identity) are modelled as `Int`; genuinely
  fractional quantities (confidence, fatigue components, bias fractions)
  are modelled as `ℚ`, with the source's decimal literals written as
  exact fractions (0.95 = 95/100, 0.4 = 4/10, 2.5 = 5/2, ...).
* JS `Array.prototype.sort` with comparator `(a, b) => b.score - a.score`
  is a stable descending sort by score (stability is required by ES2019);
  any stable sort agrees with `List.insertionSort` for the corresponding
  total preorder, which is what we use.
* JS string operations are modelled on the character list of the string:
  `hay.includes(pat)` is infix containment, `toLowerCase`/`trim` map and
  drop characters of the list, `split(/\s+/)` on a trimmed string is
  splitting on whitespace with empty fragments dropped (for the empty
  string JS yields `[""]`, i.e. word count 1).  `String.length` agrees
  with the JS length on ASCII data.
* JS records used as string-keyed maps are modelled as association lists
  in key-insertion order; `undefined`/`null` are `Option.none`; JS
  truthiness of an optional number is "present and nonzero", of a string
  is "nonempty".
* ISO timestamp strings: `new Date(s).toISOString().split('T')[0]` is
  modelled as taking the part of `s` before `'T'`, which is the calendar
  day for UTC ISO-8601 inputs.
* Free-text narrative outputs (`reasoning`, `summary`, `key_factors`,
  `potential_biases`, insight texts/titles) are not modelled: no claim
  under consideration refers to them.  The structures below keep exactly
  the fields the claims are about.
-/

namespace DailyWhy

/-- JS `s.toLowerCase()`; defined on the character list so that it evaluates
inside the kernel (the core `String.toLower` is position-based and does
not). -/
def strLower (s : String) : String := ⟨s.data.map Char.toLower⟩

/-- JS `s.trim()`. -/
def strTrim (s : String) : String :=
  ⟨((s.data.dropWhile Char.isWhitespace).reverse.dropWhile
      Char.isWhitespace).reverse⟩

/-- Splitting a character list at the characters satisfying `p`; fragments
between two adjacent separators are empty, as for JS `split`. -/
def splitChars (p : Char → Bool) : List Char → List (List Char)
  | [] => [[]]
  | c :: cs =>
    let r := splitChars p cs
    if p c then [] :: r
    else
      match r with
      | [] => [[c]]
      | w :: ws => (c :: w) :: ws

/-- JS `s.split(/\s+/)`-style splitting (empty fragments are kept here and
dropped or ignored by the callers, matching the JS behaviour on the
trimmed strings these are applied to). -/
def splitStr (s : String) (p : Char → Bool) : List String :=
  (splitChars p s.data).map (fun w => ⟨w⟩)

/-- JS string `includes` on character lists: `pat` occurs as a prefix here. -/
def charsHasPrefixOf : List Char → List Char → Bool
  | _, [] => true
  | [], _ :: _ => false
  | a :: as, p :: ps => a == p && charsHasPrefixOf as ps

/-- JS string `includes` on character lists: `pat` occurs as an infix of `hay`. -/
def charsHasInfixOf : List Char → List Char → Bool
  | hay, pat =>
    charsHasPrefixOf hay pat ||
      match hay with
      | [] => false
      | _ :: t => charsHasInfixOf t pat

/-- JS `hay.includes(pat)`. -/
def strIncludes (hay pat : String) : Bool :=
  charsHasInfixOf hay.toList pat.toList

/-- JS `a || b` for strings (empty string is falsy). -/
def jsOrStr (a b : String) : String := if a = "" then b else a

/-- JS truthiness of a nullable number: present and nonzero. -/
def jsTruthyNum : Option ℚ → Bool
  | none => false
  | some q => q != 0

/-- JS `Math.max(...xs)` for a nonempty integer list (JS yields `-Infinity` on
an empty spread; the pipelines only reach this with a nonempty list). -/
def listMax : List Int → Int
  | [] => 0
  | x :: xs => xs.foldl max x

/-- JS `Math.min(...xs)` for a nonempty integer list. -/
def listMin : List Int → Int
  | [] => 0
  | x :: xs => xs.foldl min x

/-! ## Data model of the decision-analysis pipeline -/

structure DecisionOption where
  id : String
  text : String
  pros : List String := []
  cons : List String := []
deriving DecidableEq, Inhabited

structure DecisionContext where
  title : String
  description : Option String := none
  category : String
  urgency : String
  options : List DecisionOption
deriving DecidableEq, Inhabited

structure AIRanking where
  option_id : String
  rank : Nat
  score : Int
  predicted_outcome : String
  risk_level : String
  time_horizon : String
deriving DecidableEq, Inhabited

/-- Output record; narrative free-text fields are not modelled. -/
structure AIAnalysisResult where
  rankings : List AIRanking
  confidence_score : ℚ
  recommended_action : String
deriving DecidableEq, Inhabited

/-! ## Option Scorer (`localAnalyzeDecision`, per-option part) -/

def workWords : List String :=
  ["work", "project", "job", "task", "assignment", "study", "homework",
   "deadline", "school", "college", "office"]

def avoidanceWords : List String :=
  ["sleep", "rest", "relax", "nothing", "later", "tomorrow", "skip",
   "ignore", "avoid", "procrastinate", "delay", "netflix", "game", "play",
   "chill"]

def productiveWords : List String :=
  ["work", "project", "study", "complete", "finish", "start", "begin",
   "do", "create", "build", "learn", "practice", "maths", "math",
   "graphics", "code", "write", "research", "prepare"]

def positiveWords : List String :=
  ["best", "better", "good", "great", "important", "priority", "urgent",
   "deadline", "required", "necessary"]

def negativeWords : List String :=
  ["risk", "bad", "problem", "difficult", "hard", "boring", "tedious"]

/-- The template string of the title and description, lower-cased,
joined by one space. -/
def fullContext (ctx : DecisionContext) : String :=
  strLower ctx.title ++ " " ++ strLower (ctx.description.getD "")

/-- Source `/work|project|.../i.test(fullContext)`: the pattern alternatives are
lower-case words, the subject is already lower-cased, so the regex test is
substring containment of one of the words. -/
def isWorkDecision (ctx : DecisionContext) : Bool :=
  workWords.any (fun w => strIncludes (fullContext ctx) w)

/-- Source `titleLower.split(/\s+/).filter(w => w.length > 3)`. -/
def titleWords (ctx : DecisionContext) : List String :=
  (splitStr (strLower ctx.title) Char.isWhitespace).filter (fun w => w.length > 3)

/-- Number of words of `words` contained in `text` (each match of the
`forEach` adds its bonus once per occurrence in the list). -/
def countContaining (words : List String) (text : String) : Nat :=
  (words.filter (fun w => strIncludes text w)).length

/-- Source `optionText.split(/\s+/).length` for a trimmed string. -/
def jsWordCount (s : String) : Nat :=
  if s = "" then 1
  else ((splitStr s Char.isWhitespace).filter (fun w => w ≠ "")).length

/-- Source `Math.max(0, 3 - index)`. -/
def idxBonus (i : Nat) : Int := max 0 (3 - (i : Int))

/-- The raw score contributions that do not depend on the option's
position: base 50, work-decision avoidance/productivity adjustments,
title-word boosts, sentiment, pros/cons, specificity bonus.  Addition is
commutative, so the accumulation order of the source does not matter. -/
def rawBase (ctx : DecisionContext) (text : String) (pros cons : List String) : Int :=
  let optionText := strTrim (strLower text)
  let isAvoid := avoidanceWords.any (fun w => strIncludes optionText w)
  let isProd := productiveWords.any (fun w => strIncludes optionText w)
  50
  - (if isWorkDecision ctx && isAvoid then 25 else 0)
  + (if isWorkDecision ctx && isProd then 15 else 0)
  + 10 * (countContaining (titleWords ctx) optionText : Int)
  + 5 * (countContaining positiveWords optionText : Int)
  - 3 * (countContaining negativeWords optionText : Int)
  + 10 * (pros.length : Int)
  - 7 * (cons.length : Int)
  + (if 2 ≤ jsWordCount optionText && jsWordCount optionText ≤ 10 then 5 else 0)

/-- Risk level branch of the scorer. -/
def riskLevelFor (ctx : DecisionContext) (text : String) : String :=
  let optionText := strTrim (strLower text)
  let isAvoid := avoidanceWords.any (fun w => strIncludes optionText w)
  let isProd := productiveWords.any (fun w => strIncludes optionText w)
  if isAvoid && isWorkDecision ctx then "high"
  else if isProd then "low"
  else "medium"

def timeHorizonFor (ctx : DecisionContext) : String :=
  if ctx.urgency == "high" || ctx.urgency == "critical" then "short-term"
  else "long-term"

def outcomeTable (category : String) : List String :=
  if category = "career" then
    ["career advancement", "professional growth", "skill development",
     "network expansion"]
  else if category = "finance" then
    ["financial stability", "investment returns", "cost savings",
     "budget optimization"]
  else if category = "health" then
    ["improved wellness", "better habits", "increased energy",
     "long-term health benefits"]
  else if category = "relationships" then
    ["stronger connections", "better communication", "mutual understanding",
     "trust building"]
  else if category = "lifestyle" then
    ["improved quality of life", "better work-life balance",
     "personal satisfaction", "new experiences"]
  else
    ["positive progress", "goal achievement", "personal growth",
     "favorable results"]

def generateOutcome (o : DecisionOption) (category : String) : String :=
  let t := outcomeTable category
  let phrase := t.getD (o.text.length % t.length) ""
  if o.pros.length > o.cons.length then
    "Likely to result in " ++ phrase ++ " with manageable challenges"
  else if o.cons.length > o.pros.length then
    "May face obstacles but could lead to " ++ phrase ++
      " with careful execution"
  else
    "Balanced outcome expected with potential for " ++ phrase

/-- One pass of `options.map((option, index) => ...)`:
`Math.min(95, Math.max(20, Math.round(score)))` with all-integer arithmetic. -/
def scoreOption (ctx : DecisionContext) (i : Nat) (o : DecisionOption) : AIRanking :=
  { option_id := o.id
    rank := 0
    score := min 95 (max 20 (rawBase ctx o.text o.pros o.cons + idxBonus i))
    predicted_outcome := generateOutcome o ctx.category
    risk_level := riskLevelFor ctx o.text
    time_horizon := timeHorizonFor ctx }

def scoreOptions (ctx : DecisionContext) : Nat → List DecisionOption → List AIRanking
  | _, [] => []
  | i, o :: os => scoreOption ctx i o :: scoreOptions ctx (i + 1) os

/-! ## Score Normalizer -/

/-- The total preorder `rankings.sort((a, b) => b.score - a.score)` sorts by. -/
def scoreGE (a b : AIRanking) : Prop := b.score ≤ a.score

instance : DecidableRel scoreGE :=
  fun a b => inferInstanceAs (Decidable (b.score ≤ a.score))

instance : IsTotal AIRanking scoreGE := ⟨fun a b => le_total b.score a.score⟩

instance : IsTrans AIRanking scoreGE :=
  ⟨fun _ _ _ h₁ h₂ => le_trans h₂ h₁⟩

/-- Stable descending sort by score (JS `sort` is stable per ES2019). -/
def sortByScoreDesc (l : List AIRanking) : List AIRanking :=
  List.insertionSort scoreGE l

/-- Source `Math.max(25, Math.min(95, 85 - (i * 15)))`. -/
def spreadScore (i : Nat) : Int := max 25 (min 95 (85 - 15 * (i : Int)))

/-- The `forEach` of the low-spread branch: positionally reassign scores. -/
def respreadScores : Nat → List AIRanking → List AIRanking
  | _, [] => []
  | i, r :: rs => { r with score := spreadScore i } :: respreadScores (i + 1) rs

/-- Lines 150–160: spread check and score reassignment. -/
def normalizeScores (rs : List AIRanking) : List AIRanking :=
  let scores := rs.map (·.score)
  if listMax scores - listMin scores < 15 ∧ rs.length > 1 then
    respreadScores 0 (sortByScoreDesc rs)
  else rs

/-- Source `rankings.forEach((r, i) => r.rank = i + 1)`. -/
def assignRanks : Nat → List AIRanking → List AIRanking
  | _, [] => []
  | i, r :: rs => { r with rank := i + 1 } :: assignRanks (i + 1) rs

/-- Spread of the raw (pre-normalization) scores of a context. -/
def rawSpread (ctx : DecisionContext) : Int :=
  let s := (scoreOptions ctx 0 ctx.options).map (·.score)
  listMax s - listMin s

/-! ## Full pipeline -/

def localAnalyzeDecision (ctx : DecisionContext) : AIAnalysisResult :=
  let scored := scoreOptions ctx 0 ctx.options
  let ranked := assignRanks 0 (sortByScoreDesc (normalizeScores scored))
  let finalScores := ranked.map (·.score)
  let spread := listMax finalScores - listMin finalScores
  let topOption : Option DecisionOption :=
    match ranked.head? with
    | some r0 => ctx.options.find? (fun o => o.id == r0.option_id)
    | none => none
  { rankings := ranked
    confidence_score :=
      min (95 / 100 : ℚ) (5 / 10 + ((spread : ℚ) / 100) * (4 / 10))
    recommended_action :=
      jsOrStr (match topOption with | some o => o.text | none => "")
        (jsOrStr (match ctx.options.head? with | some o => o.text | none => "")
          "Make a choice") }

/-! ## Weekly Metrics Analyzer (`insights-engine`)

The database rows are modelled with exactly the fields the analyzer
reads; `options` rows are cast by the source to `Array<{id, text}>` and
only the `id` is read, `chosen_option` to `{id} | null`. -/

structure OptionRef where
  id : String
deriving DecidableEq, Inhabited

structure Decision where
  id : String
  category : String
  urgency : String
  options : List OptionRef
  chosen_option : Option OptionRef
  confidence_score : Option ℚ
  time_to_decide : Option ℚ
  is_completed : Bool
  created_at : String
deriving DecidableEq, Inhabited

/-- Source `new Date(d.created_at).toISOString().split('T')[0]` for a UTC
ISO-8601 timestamp string: the part before `'T'`. -/
def isoDay (s : String) : String := ⟨s.data.takeWhile (fun c => c != 'T')⟩

/-- The distinct keys of `dailyDecisionCounts`, in insertion order. -/
def decisionDays (ds : List Decision) : List String :=
  (ds.map (fun d => isoDay d.created_at)).dedup

/-- The values of `dailyDecisionCounts`. -/
def dailyCounts (ds : List Decision) : List Nat :=
  (decisionDays ds).map
    (fun day => (ds.map (fun d => isoDay d.created_at)).count day)

/-- Source `Object.values(dailyDecisionCounts).reduce((a, b) => a + b, 0) /
Object.keys(dailyDecisionCounts).length`. -/
def avgDailyDecisions (ds : List Decision) : ℚ :=
  ((dailyCounts ds).sum : ℚ) / ((decisionDays ds).length : ℚ)

def highUrgencyCount (ds : List Decision) : Nat :=
  (ds.filter (fun d => d.urgency == "high" || d.urgency == "critical")).length

/-- The decisions counted by `decisionsWithTime` (`if (d.time_to_decide)`:
truthiness, so a recorded 0 is skipped). -/
def timedDecisions (ds : List Decision) : List Decision :=
  ds.filter (fun d => jsTruthyNum d.time_to_decide)

def totalTimeToDecide (ds : List Decision) : ℚ :=
  ((timedDecisions ds).map (fun d => d.time_to_decide.getD 0)).sum

def avgTimeToDecide (ds : List Decision) : ℚ :=
  if (timedDecisions ds).length > 0 then
    totalTimeToDecide ds / ((timedDecisions ds).length : ℚ)
  else 0

def incompleteCount (ds : List Decision) : Nat :=
  (ds.filter (fun d => !d.is_completed)).length

/-- Source `Math.min(avgDailyDecisions / 5, 2.5)`. -/
def fatigueDailyComponent (ds : List Decision) : ℚ :=
  min (avgDailyDecisions ds / 5) (5 / 2)

/-- Source `urgencyRatio * 2.5`. -/
def fatigueUrgencyComponent (ds : List Decision) : ℚ :=
  ((highUrgencyCount ds : ℚ) / (ds.length : ℚ)) * (5 / 2)

/-- Source `Math.min(avgTimeToDecide / 300, 2.5)`. -/
def fatigueTimeComponent (ds : List Decision) : ℚ :=
  min (avgTimeToDecide ds / 300) (5 / 2)

/-- Source `incompleteRatio * 2.5`. -/
def fatigueIncompleteComponent (ds : List Decision) : ℚ :=
  ((incompleteCount ds : ℚ) / (ds.length : ℚ)) * (5 / 2)

def calculateFatigueScore (ds : List Decision) : ℚ :=
  if ds = [] then 0
  else
    min (fatigueDailyComponent ds + fatigueUrgencyComponent ds +
      fatigueTimeComponent ds + fatigueIncompleteComponent ds) 10

/-! ### `analyzeBiases` -/

structure BiasReport where
  first_option_bias : ℚ
  last_option_bias : ℚ
  status_quo_bias : ℚ
  overconfidence_bias : ℚ
  analysis_paralysis : ℚ
deriving DecidableEq, Inhabited

/-- Source `options && options.length > 0 && chosen && options[0]?.id === chosen.id`. -/
def chosenIsFirst (d : Decision) : Bool :=
  match d.chosen_option with
  | some c =>
    match d.options.head? with
    | some o => o.id == c.id
    | none => false
  | none => false

/-- Same with `options[options.length - 1]`. -/
def chosenIsLast (d : Decision) : Bool :=
  match d.chosen_option with
  | some c =>
    match d.options.getLast? with
    | some o => o.id == c.id
    | none => false
  | none => false

/-- Source `d.confidence_score && d.confidence_score > 0.8`. -/
def isOverconfident (d : Decision) : Bool :=
  jsTruthyNum d.confidence_score &&
    decide ((8 / 10 : ℚ) < d.confidence_score.getD 0)

/-- Source `d.time_to_decide && d.time_to_decide > 600`. -/
def isLongDecision (d : Decision) : Bool :=
  jsTruthyNum d.time_to_decide &&
    decide ((600 : ℚ) < d.time_to_decide.getD 0)

/-- Model of `analyzeBiases` of the insights engine (the `status_quo_bias` counter
is never incremented by the source). -/
def analyzeBiases (ds : List Decision) : BiasReport :=
  let total : ℚ := if ds.length = 0 then 1 else (ds.length : ℚ)
  { first_option_bias := ((ds.filter chosenIsFirst).length : ℚ) / total
    last_option_bias := ((ds.filter chosenIsLast).length : ℚ) / total
    status_quo_bias := 0
    overconfidence_bias := ((ds.filter isOverconfident).length : ℚ) / total
    analysis_paralysis := ((ds.filter isLongDecision).length : ℚ) / total }

/-! ### Insight generation (`generateInsightsFromMetrics`)

Only the structure of the emitted insight records matters to the claims:
their `insight_type`, optional `category`, and `priority`.  The
`categoryPerformance` record is an association list in key order, as the
source's `Object.entries` produces. -/

structure CatStats where
  total : Nat
  positive : Nat
deriving DecidableEq, Inhabited

structure UserMetricsM where
  successRate : ℚ
  fatigueScore : ℚ
  biasAnalysis : List (String × ℚ)
  categoryPerformance : List (String × CatStats)
deriving DecidableEq, Inhabited

structure InsightM where
  insight_type : String
  category : Option String
  priority : Nat
deriving DecidableEq, Inhabited

/-- The keys of `biasDescriptions` (a bias key without a description emits
no insight). -/
def biasHasDescription (b : String) : Bool :=
  b == "first_option_bias" || b == "last_option_bias" ||
    b == "overconfidence_bias" || b == "analysis_paralysis"

/-- One step of the best-category `reduce` callback: a candidate replaces
the accumulator only when its positive rate is strictly greater. -/
def bestCategoryStep (best c : String × CatStats) : String × CatStats :=
  let rate : ℚ :=
    if c.2.total > 0 then (c.2.positive : ℚ) / (c.2.total : ℚ) else 0
  let bestRate : ℚ :=
    if best.2.total > 0 then (best.2.positive : ℚ) / (best.2.total : ℚ) else 0
  if bestRate < rate then c else best

/-- The best-category fold, seeded with the sentinel
`['none', {total: 0, positive: 0}]`. -/
def bestCategory (cats : List (String × CatStats)) : String × CatStats :=
  cats.foldl bestCategoryStep ("none", ⟨0, 0⟩)

/-- The sequence of insight records pushed by
`generateInsightsFromMetrics`, in push order. -/
def generateInsightsFromMetrics (m : UserMetricsM) : List InsightM :=
  (if (7 / 10 : ℚ) ≤ m.successRate then [⟨"weekly", none, 5⟩]
   else if m.successRate < (5 / 10 : ℚ) then [⟨"weekly", none, 8⟩]
   else [])
  ++ (if (7 : ℚ) ≤ m.fatigueScore then [⟨"pattern", none, 9⟩] else [])
  ++ ((m.biasAnalysis.filter
        (fun p => decide ((4 / 10 : ℚ) < p.2) && biasHasDescription p.1)).map
      (fun _ => (⟨"pattern", none, 7⟩ : InsightM)))
  ++ (let bc := bestCategory m.categoryPerformance
      if bc.1 ≠ "none" ∧ 3 ≤ bc.2.total then [⟨"category", some bc.1, 4⟩]
      else [])

/-! ## Concrete contexts used by the example claims and the witnesses -/

/-- The spec's example scenario: "Finish project or sleep". -/
def ctxFinishProject : DecisionContext :=
  { title := "Finish project or sleep", category := "work", urgency := "high",
    options := [{ id := "1", text := "Finish the project" },
                { id := "2", text := "Go to sleep" }] }

/-- A six-option context whose raw scores are 63, 62, 61, 55, 60, 57
(spread 8 < 15, so the low-spread reassignment fires); the raw scores of
the options at input positions 3 ("d", score 55) and 5 ("f", score 57)
are out of input order, and both end up clamped to the reassigned floor
score 25. -/
def ctxSixOptions : DecisionContext :=
  { title := "hm", category := "general", urgency := "low",
    options := [{ id := "a", text := "zzz", pros := ["p1"] },
                { id := "b", text := "zzz", pros := ["p1"] },
                { id := "c", text := "zzz", pros := ["p1"] },
                { id := "d", text := "qq qq" },
                { id := "e", text := "zzz", pros := ["p1"] },
                { id := "f", text := "badx", pros := ["p1"] }] }

/-- The witness context for C6: two options with identical text
"aaa", no pros/cons, a title with no words longer than three characters
and no work keywords. -/
def ctxSamePair : DecisionContext :=
  { title := "hm", category := "general", urgency := "low",
    options := [{ id := "1", text := "aaa" }, { id := "2", text := "aaa" }] }

/-- A six-option context with all-identical option texts: raw scores
53, 52, 51, 50, 50, 50 (spread 3 < 15), used as the C9 witness. -/
def ctxSixSame : DecisionContext :=
  { title := "hm", category := "general", urgency := "low",
    options := [{ id := "a", text := "zzz" }, { id := "b", text := "zzz" },
                { id := "c", text := "zzz" }, { id := "d", text := "zzz" },
                { id := "e", text := "zzz" }, { id := "f", text := "zzz" }] }

/-- The spec's fatigue example: five decisions on a single calendar day,
all with urgency "critical", `time_to_decide` 900 seconds, incomplete. -/
def fiveCriticalDecisions : List Decision :=
  [{ id := "d1", category := "work", urgency := "critical", options := [],
     chosen_option := none, confidence_score := none,
     time_to_decide := some 900, is_completed := false,
     created_at := "2026-01-05T08:00:00.000Z" },
   { id := "d2", category := "work", urgency := "critical", options := [],
     chosen_option := none, confidence_score := none,
     time_to_decide := some 900, is_completed := false,
     created_at := "2026-01-05T09:30:00.000Z" },
   { id := "d3", category := "general", urgency := "critical", options := [],
     chosen_option := none, confidence_score := none,
     time_to_decide := some 900, is_completed := false,
     created_at := "2026-01-05T11:00:00.000Z" },
   { id := "d4", category := "work", urgency := "critical", options := [],
     chosen_option := none, confidence_score := none,
     time_to_decide := some 900, is_completed := false,
     created_at := "2026-01-05T14:00:00.000Z" },
   { id := "d5", category := "work", urgency := "critical", options := [],
     chosen_option := none, confidence_score := none,
     time_to_decide := some 900, is_completed := false,
     created_at := "2026-01-05T20:00:00.000Z" }]

/-- The two JS-falsy shapes of `time_to_decide` may be traded for each
other (or the fields are simply equal). -/
def timeFieldEquiv (a b : Option ℚ) : Prop :=
  a = b ∨ (a = none ∧ b = some 0) ∨ (a = some 0 ∧ b = none)

/-- Decision rows that agree on every field except that `time_to_decide`
may trade `null` for a recorded 0. -/
def decisionTimeEquiv (d₁ d₂ : Decision) : Prop :=
  d₁.id = d₂.id ∧ d₁.category = d₂.category ∧ d₁.urgency = d₂.urgency ∧
    d₁.options = d₂.options ∧ d₁.chosen_option = d₂.chosen_option ∧
    d₁.confidence_score = d₂.confidence_score ∧
    d₁.is_completed = d₂.is_completed ∧ d₁.created_at = d₂.created_at ∧
    timeFieldEquiv d₁.time_to_decide d₂.time_to_decide

/-- The C10 witness rows: identical except that one has no recorded
`time_to_decide` and the other records 0 seconds. -/
def decisionTimeNone : Decision :=
  { id := "w1", category := "work", urgency := "low", options := [],
    chosen_option := none, confidence_score := none, time_to_decide := none,
    is_completed := true, created_at := "2026-02-01T10:00:00.000Z" }

def decisionTimeZero : Decision :=
  { id := "w1", category := "work", urgency := "low", options := [],
    chosen_option := none, confidence_score := none,
    time_to_decide := some 0, is_completed := true,
    created_at := "2026-02-01T10:00:00.000Z" }


/-! ## Basic lemmas about the pipeline building blocks -/

theorem scoreOptions_length (ctx : DecisionContext) :
    ∀ (i : Nat) (os : List DecisionOption),
      (scoreOptions ctx i os).length = os.length
  | _, [] => rfl
  | i, _ :: os => by
    simp [scoreOptions, scoreOptions_length ctx (i + 1) os]

theorem score_bounds_of_mem_scoreOptions (ctx : DecisionContext) :
    ∀ {i : Nat} {os : List DecisionOption} {r : AIRanking},
      r ∈ scoreOptions ctx i os → 20 ≤ r.score ∧ r.score ≤ 95 := by
  intro i os
  induction os generalizing i with
  | nil => intro r h; cases h
  | cons o os ih =>
    intro r h
    rcases List.mem_cons.mp h with rfl | h
    · constructor
      · exact le_min (by norm_num) (le_max_left _ _)
      · exact min_le_left _ _
    · exact ih h

theorem option_id_of_mem_scoreOptions (ctx : DecisionContext) :
    ∀ {i : Nat} {os : List DecisionOption} {r : AIRanking},
      r ∈ scoreOptions ctx i os → ∃ o ∈ os, r.option_id = o.id := by
  intro i os
  induction os generalizing i with
  | nil => intro r h; cases h
  | cons o os ih =>
    intro r h
    rcases List.mem_cons.mp h with rfl | h
    · exact ⟨o, List.mem_cons_self o os, rfl⟩
    · obtain ⟨o', ho', hid⟩ := ih h
      exact ⟨o', List.mem_cons_of_mem o ho', hid⟩

theorem assignRanks_length : ∀ (i : Nat) (l : List AIRanking),
    (assignRanks i l).length = l.length
  | _, [] => rfl
  | i, _ :: l => by simp [assignRanks, assignRanks_length (i + 1) l]

theorem assignRanks_map_rank : ∀ (i : Nat) (l : List AIRanking),
    (assignRanks i l).map (fun r => r.rank) = List.range' (i + 1) l.length
  | _, [] => rfl
  | i, r :: l => by
    simp [assignRanks, List.range'_succ, assignRanks_map_rank (i + 1) l]

theorem assignRanks_getElem? : ∀ (i : Nat) (l : List AIRanking) (k : Nat),
    (assignRanks i l)[k]? = l[k]?.map (fun r => { r with rank := i + k + 1 })
  | _, [], k => by simp [assignRanks]
  | i, r :: l, 0 => by simp [assignRanks]
  | i, r :: l, k + 1 => by
    simp only [assignRanks, List.getElem?_cons_succ, assignRanks_getElem? (i + 1) l k]
    have : i + 1 + k + 1 = i + (k + 1) + 1 := by omega
    rw [this]

theorem mem_assignRanks : ∀ {i : Nat} {l : List AIRanking} {r : AIRanking},
    r ∈ assignRanks i l →
      ∃ (k : Nat) (r₀ : AIRanking),
        l[k]? = some r₀ ∧ r = { r₀ with rank := i + k + 1 } := by
  intro i l
  induction l generalizing i with
  | nil => intro r h; cases h
  | cons a l ih =>
    intro r h
    rcases List.mem_cons.mp h with rfl | h
    · exact ⟨0, a, by simp⟩
    · obtain ⟨k, r₀, hk, hr⟩ := ih h
      refine ⟨k + 1, r₀, by simpa using hk, ?_⟩
      rw [hr]
      have harith : i + 1 + k + 1 = i + (k + 1) + 1 := by omega
      rw [harith]

theorem assignRanks_filter_map (s : Int) : ∀ (i : Nat) (l : List AIRanking),
    ((assignRanks i l).filter (fun r => r.score == s)).map (fun r => r.option_id) =
      (l.filter (fun r => r.score == s)).map (fun r => r.option_id)
  | _, [] => rfl
  | i, r :: l => by
    by_cases h : r.score = s
    · simp [assignRanks, List.filter_cons, h, assignRanks_filter_map s (i + 1) l]
    · simp [assignRanks, List.filter_cons, h, assignRanks_filter_map s (i + 1) l]

theorem respreadScores_length : ∀ (i : Nat) (l : List AIRanking),
    (respreadScores i l).length = l.length
  | _, [] => rfl
  | i, _ :: l => by simp [respreadScores, respreadScores_length (i + 1) l]

theorem respreadScores_getElem? : ∀ (i : Nat) (l : List AIRanking) (k : Nat),
    (respreadScores i l)[k]? = l[k]?.map (fun r => { r with score := spreadScore (i + k) })
  | _, [], k => by simp [respreadScores]
  | i, r :: l, 0 => by simp [respreadScores]
  | i, r :: l, k + 1 => by
    simp only [respreadScores, List.getElem?_cons_succ,
      respreadScores_getElem? (i + 1) l k]
    have : i + 1 + k = i + (k + 1) := by omega
    rw [this]

theorem mem_respreadScores : ∀ {i : Nat} {l : List AIRanking} {r : AIRanking},
    r ∈ respreadScores i l →
      ∃ (j : Nat) (r₀ : AIRanking),
        i ≤ j ∧ r₀ ∈ l ∧ r = { r₀ with score := spreadScore j } := by
  intro i l
  induction l generalizing i with
  | nil => intro r h; cases h
  | cons a l ih =>
    intro r h
    rcases List.mem_cons.mp h with rfl | h
    · exact ⟨i, a, le_refl i, List.mem_cons_self a l, rfl⟩
    · obtain ⟨j, r₀, hij, hr₀, hr⟩ := ih h
      exact ⟨j, r₀, by omega, List.mem_cons_of_mem a hr₀, hr⟩

theorem spreadScore_bounds (i : Nat) : 25 ≤ spreadScore i ∧ spreadScore i ≤ 95 := by
  constructor
  · exact le_max_left _ _
  · rw [spreadScore]
    exact max_le (by norm_num) (min_le_left _ _)

theorem spreadScore_antitone {i j : Nat} (h : i ≤ j) :
    spreadScore j ≤ spreadScore i := by
  have hx : (85 - 15 * (j : Int)) ≤ 85 - 15 * (i : Int) := by omega
  exact max_le_max (le_refl _) (min_le_min (le_refl _) hx)

theorem spreadScore_eq_25 {k : Nat} (hk : 4 ≤ k) : spreadScore k = 25 := by
  have h1 : (85 - 15 * (k : Int)) ≤ 25 := by omega
  have h2 : (85 - 15 * (k : Int)) ≤ 95 := by omega
  rw [spreadScore, min_eq_right h2, max_eq_left h1]

theorem respreadScores_sorted : ∀ (l : List AIRanking) (i : Nat),
    List.Sorted scoreGE (respreadScores i l)
  | [], _ => List.sorted_nil
  | a :: l, i => by
    rw [respreadScores, List.sorted_cons]
    refine ⟨?_, respreadScores_sorted l (i + 1)⟩
    intro b hb
    obtain ⟨j, r₀, hij, _, rfl⟩ := mem_respreadScores hb
    show spreadScore j ≤ spreadScore i
    exact spreadScore_antitone (by omega)

theorem foldl_min_le_init : ∀ (xs : List Int) (x : Int), xs.foldl min x ≤ x
  | [], _ => le_refl _
  | y :: ys, x =>
    le_trans (foldl_min_le_init ys (min x y)) (min_le_left _ _)

theorem init_le_foldl_max : ∀ (xs : List Int) (x : Int), x ≤ xs.foldl max x
  | [], _ => le_refl _
  | y :: ys, x =>
    le_trans (le_max_left _ _) (init_le_foldl_max ys (max x y))

theorem listMin_le_listMax {l : List Int} (h : l ≠ []) :
    listMin l ≤ listMax l := by
  match l, h with
  | x :: xs, _ =>
    exact le_trans (foldl_min_le_init xs x) (init_le_foldl_max xs x)

/-! ## Stability of the descending sort -/

theorem filter_orderedInsert_score (s : Int) (a : AIRanking) :
    ∀ l : List AIRanking,
      (List.orderedInsert scoreGE a l).filter (fun r => r.score == s) =
        if a.score = s then a :: l.filter (fun r => r.score == s)
        else l.filter (fun r => r.score == s)
  | [] => by
    by_cases h : a.score = s <;>
      simp [List.orderedInsert, List.filter_cons, beq_iff_eq, h]
  | b :: l => by
    rw [List.orderedInsert]
    by_cases hab : scoreGE a b
    · rw [if_pos hab]
      by_cases h : a.score = s <;> simp [List.filter_cons, beq_iff_eq, h]
    · rw [if_neg hab]
      have hlt : a.score < b.score := lt_of_not_le hab
      by_cases hb : b.score = s
      · have ha : ¬a.score = s := by
          intro heq; rw [heq, ← hb] at hlt; exact lt_irrefl _ hlt
        simp [List.filter_cons, beq_iff_eq, hb, ha,
          filter_orderedInsert_score s a l]
      · by_cases h : a.score = s <;>
          simp [List.filter_cons, beq_iff_eq, hb, h,
            filter_orderedInsert_score s a l]

theorem filter_sortByScoreDesc_score (s : Int) :
    ∀ l : List AIRanking,
      (sortByScoreDesc l).filter (fun r => r.score == s) =
        l.filter (fun r => r.score == s)
  | [] => rfl
  | a :: l => by
    have ih := filter_sortByScoreDesc_score s l
    rw [sortByScoreDesc] at ih ⊢
    rw [List.insertionSort, filter_orderedInsert_score s a, ih]
    by_cases h : a.score = s <;> simp [List.filter_cons, beq_iff_eq, h]

/-! ## Pipeline-level lemmas -/

theorem localAnalyze_rankings_def (ctx : DecisionContext) :
    (localAnalyzeDecision ctx).rankings =
      assignRanks 0
        (sortByScoreDesc (normalizeScores (scoreOptions ctx 0 ctx.options))) :=
  rfl

theorem localAnalyze_confidence_def (ctx : DecisionContext) :
    (localAnalyzeDecision ctx).confidence_score =
      min (95 / 100 : ℚ)
        (5 / 10 +
          (((listMax ((localAnalyzeDecision ctx).rankings.map (fun r => r.score)) -
              listMin ((localAnalyzeDecision ctx).rankings.map (fun r => r.score)) :
            Int) : ℚ) / 100) * (4 / 10)) :=
  rfl

theorem normalizeScores_length (rs : List AIRanking) :
    (normalizeScores rs).length = rs.length := by
  rw [normalizeScores]
  split
  · rw [respreadScores_length, sortByScoreDesc, List.length_insertionSort]
  · rfl

theorem rankings_length (ctx : DecisionContext) :
    (localAnalyzeDecision ctx).rankings.length = ctx.options.length := by
  rw [localAnalyze_rankings_def, assignRanks_length, sortByScoreDesc,
    List.length_insertionSort, normalizeScores_length, scoreOptions_length]

theorem rankings_map_rank (ctx : DecisionContext) :
    (localAnalyzeDecision ctx).rankings.map (fun r => r.rank) =
      List.range' 1 ctx.options.length := by
  rw [localAnalyze_rankings_def, assignRanks_map_rank, sortByScoreDesc,
    List.length_insertionSort, normalizeScores_length, scoreOptions_length]

theorem score_bounds_of_mem_normalize (ctx : DecisionContext) {r : AIRanking}
    (hr : r ∈ normalizeScores (scoreOptions ctx 0 ctx.options)) :
    20 ≤ r.score ∧ r.score ≤ 95 := by
  rw [normalizeScores] at hr
  split at hr
  · obtain ⟨j, r₁, _, _, rfl⟩ := mem_respreadScores hr
    have hb := spreadScore_bounds j
    exact ⟨le_trans (by norm_num) hb.1, hb.2⟩
  · exact score_bounds_of_mem_scoreOptions ctx hr

theorem option_id_of_mem_normalize (ctx : DecisionContext) {r : AIRanking}
    (hr : r ∈ normalizeScores (scoreOptions ctx 0 ctx.options)) :
    ∃ o ∈ ctx.options, r.option_id = o.id := by
  rw [normalizeScores] at hr
  split at hr
  · obtain ⟨j, r₁, _, hmem, rfl⟩ := mem_respreadScores hr
    have hmem' := (List.mem_insertionSort scoreGE).mp hmem
    obtain ⟨o, ho, hid⟩ := option_id_of_mem_scoreOptions ctx hmem'
    exact ⟨o, ho, hid⟩
  · exact option_id_of_mem_scoreOptions ctx hr

/-! ## Claims -/

/-- Claim C1, counterexample to the tie-breaking clause.  In `ctxSixOptions`
the raw spread is 8 < 15, so the reassignment branch fires; the options
with ids "d" (input position 3) and "f" (input position 5) both receive
the clamped final score 25, yet "f" is ranked 5 and "d" is ranked 6: a
tie in (final) score between two options is broken by descending raw
score (57 > 55), not by original input order. -/
theorem claim1_counterexample :
    ctxSixOptions.options.map (fun o => o.id) =
      ["a", "b", "c", "d", "e", "f"] ∧
    (localAnalyzeDecision ctxSixOptions).rankings.map
        (fun r => (r.option_id, r.score, r.rank)) =
      [("a", 85, 1), ("b", 70, 2), ("c", 55, 3), ("e", 40, 4),
       ("f", 25, 5), ("d", 25, 6)] := by
  constructor
  · decide
  · decide

/-- Claim C1 (amended).  For every context with at least two options the
rankings list has exactly N entries whose rank values are exactly
1, ..., N in ascending order (a dense permutation, no duplicates); and
whenever the raw score spread is at least 15 — so the low-spread
reassignment does not fire — ties in final score keep the original input
order of the options (for every score value, the tied entries appear in
the same order as in the input-ordered scored list). -/
theorem claim1_rank_permutation (ctx : DecisionContext)
    (_h2 : 2 ≤ ctx.options.length) :
    (localAnalyzeDecision ctx).rankings.length = ctx.options.length ∧
    (localAnalyzeDecision ctx).rankings.map (fun r => r.rank) =
      List.range' 1 ctx.options.length ∧
    (15 ≤ rawSpread ctx →
      ∀ s : Int,
        ((localAnalyzeDecision ctx).rankings.filter
            (fun r => r.score == s)).map (fun r => r.option_id) =
          ((scoreOptions ctx 0 ctx.options).filter
            (fun r => r.score == s)).map (fun r => r.option_id)) := by
  refine ⟨rankings_length ctx, rankings_map_rank ctx, ?_⟩
  · intro h15 s
    simp only [rawSpread] at h15
    have hnorm : normalizeScores (scoreOptions ctx 0 ctx.options) =
        scoreOptions ctx 0 ctx.options := by
      rw [normalizeScores, if_neg]
      rintro ⟨hlt, -⟩
      exact absurd h15 (not_le.mpr hlt)
    rw [localAnalyze_rankings_def, hnorm, assignRanks_filter_map,
      filter_sortByScoreDesc_score]

/-- Claim C1 witness: the amended statement applied to the example context
(raw spread 51 ≥ 15). -/
theorem claim1_rank_permutation_witness :
    (localAnalyzeDecision ctxFinishProject).rankings.length = 2 ∧
    (localAnalyzeDecision ctxFinishProject).rankings.map (fun r => r.rank) =
      List.range' 1 2 ∧
    ((localAnalyzeDecision ctxFinishProject).rankings.filter
        (fun r => r.score == 93)).map (fun r => r.option_id) =
      ((scoreOptions ctxFinishProject 0 ctxFinishProject.options).filter
        (fun r => r.score == 93)).map (fun r => r.option_id) := by
  obtain ⟨h1, h2, h3⟩ := claim1_rank_permutation ctxFinishProject (by decide)
  exact ⟨h1, h2, h3 (by decide) 93⟩

/-- Claim C2: for every context with at least two options, every `score`
field in the returned rankings lies in the inclusive range [20, 95] —
the raw branch clamps into [20, 95] and the low-spread reassignment
clamps into [25, 95] ⊆ [20, 95]. -/
theorem claim2_score_bounds (ctx : DecisionContext)
    (_h2 : 2 ≤ ctx.options.length) (r : AIRanking)
    (hr : r ∈ (localAnalyzeDecision ctx).rankings) :
    20 ≤ r.score ∧ r.score ≤ 95 := by
  rw [localAnalyze_rankings_def] at hr
  obtain ⟨k, r₀, hk, rfl⟩ := mem_assignRanks hr
  have hmem := List.getElem?_mem hk
  have hmem' := (List.mem_insertionSort scoreGE).mp hmem
  show 20 ≤ r₀.score ∧ r₀.score ≤ 95
  exact score_bounds_of_mem_normalize ctx hmem'

/-- Claim C2 witness at the example context. -/
theorem claim2_score_bounds_witness :
    20 ≤ ((localAnalyzeDecision ctxFinishProject).rankings.headD default).score ∧
    ((localAnalyzeDecision ctxFinishProject).rankings.headD default).score ≤ 95 :=
  claim2_score_bounds ctxFinishProject (by decide) _ (by decide)

/-- Claim C4: `confidence_score` equals
`min(0.95, 0.5 + (finalSpread / 100) * 0.4)` where `finalSpread` is the
max minus min of the final post-normalization scores, and consequently
lies in [0.5, 0.95]. -/
theorem claim4_confidence_formula_and_bounds (ctx : DecisionContext)
    (h2 : 2 ≤ ctx.options.length) :
    (localAnalyzeDecision ctx).confidence_score =
      min (95 / 100 : ℚ)
        (5 / 10 +
          (((listMax ((localAnalyzeDecision ctx).rankings.map (fun r => r.score)) -
              listMin ((localAnalyzeDecision ctx).rankings.map (fun r => r.score)) :
            Int) : ℚ) / 100) * (4 / 10)) ∧
    (1 / 2 : ℚ) ≤ (localAnalyzeDecision ctx).confidence_score ∧
    (localAnalyzeDecision ctx).confidence_score ≤ 95 / 100 := by
  refine ⟨localAnalyze_confidence_def ctx, ?_, ?_⟩
  · rw [localAnalyze_confidence_def]
    have hne : (localAnalyzeDecision ctx).rankings.map (fun r => r.score) ≠ [] := by
      intro h
      have := congrArg List.length h
      rw [List.length_map, rankings_length ctx, List.length_nil] at this
      omega
    have hsp : (0 : Int) ≤
        listMax ((localAnalyzeDecision ctx).rankings.map (fun r => r.score)) -
          listMin ((localAnalyzeDecision ctx).rankings.map (fun r => r.score)) := by
      have := listMin_le_listMax hne
      omega
    have hq : (0 : ℚ) ≤
        ((listMax ((localAnalyzeDecision ctx).rankings.map (fun r => r.score)) -
            listMin ((localAnalyzeDecision ctx).rankings.map (fun r => r.score)) :
          Int) : ℚ) := by
      exact_mod_cast hsp
    refine le_min (by norm_num) ?_
    have : (0 : ℚ) ≤
        (((listMax ((localAnalyzeDecision ctx).rankings.map (fun r => r.score)) -
            listMin ((localAnalyzeDecision ctx).rankings.map (fun r => r.score)) :
          Int) : ℚ) / 100) * (4 / 10) := by positivity
    linarith
  · rw [localAnalyze_confidence_def]
    exact min_le_left _ _

/-- Claim C4 witness at the example context. -/
theorem claim4_confidence_witness :
    (1 / 2 : ℚ) ≤ (localAnalyzeDecision ctxFinishProject).confidence_score ∧
    (localAnalyzeDecision ctxFinishProject).confidence_score ≤ 95 / 100 :=
  (claim4_confidence_formula_and_bounds ctxFinishProject (by decide)).2

theorem find?_id_exists (rid : String) :
    ∀ (l : List DecisionOption), (∃ o ∈ l, o.id = rid) →
      ∃ o₀, l.find? (fun o => o.id == rid) = some o₀ ∧ o₀ ∈ l ∧ o₀.id = rid := by
  intro l
  induction l with
  | nil => rintro ⟨o, ho, -⟩; cases ho
  | cons a l ih =>
    intro hex
    by_cases ha : a.id = rid
    · refine ⟨a, ?_, List.mem_cons_self a l, ha⟩
      rw [List.find?_cons_of_pos]
      exact beq_iff_eq.mpr ha
    · obtain ⟨o, ho, hid⟩ := hex
      rcases List.mem_cons.mp ho with rfl | ho'
      · exact absurd hid ha
      · obtain ⟨o₀, hfind, hmem, hid₀⟩ := ih ⟨o, ho', hid⟩
        refine ⟨o₀, ?_, List.mem_cons_of_mem a hmem, hid₀⟩
        rw [List.find?_cons_of_neg, hfind]
        simp [beq_iff_eq, ha]

theorem localAnalyze_recommended_def (ctx : DecisionContext) :
    (localAnalyzeDecision ctx).recommended_action =
      jsOrStr
        (match
            (match (localAnalyzeDecision ctx).rankings.head? with
              | some r0 =>
                ctx.options.find?
                  (fun o : DecisionOption => o.id == r0.option_id)
              | none => none) with
          | some o => o.text
          | none => "")
        (jsOrStr
          (match ctx.options.head? with | some o => o.text | none => "")
          "Make a choice") :=
  rfl

theorem rank_one_is_head (ctx : DecisionContext) {r : AIRanking}
    (hr : r ∈ (localAnalyzeDecision ctx).rankings) (h1 : r.rank = 1) :
    (localAnalyzeDecision ctx).rankings.head? = some r := by
  rw [localAnalyze_rankings_def] at hr ⊢
  obtain ⟨k, r₀, hk, rfl⟩ := mem_assignRanks hr
  have hk0 : k = 0 := by
    have hx : 0 + k + 1 = 1 := h1
    omega
  subst hk0
  have hg := assignRanks_getElem? 0
    (sortByScoreDesc (normalizeScores (scoreOptions ctx 0 ctx.options))) 0
  rw [hk] at hg
  rw [List.head?_eq_getElem?, hg]
  rfl

/-- Claim C3: for every context with at least two options, pairwise
distinct option ids and non-empty option texts (a data-model invariant:
`text` is required and non-empty), the `recommended_action` equals the
`text` of the option whose ranking entry has rank 1.  The non-emptiness
is needed because the source reads `topOption?.text || options[0]?.text
|| 'Make a choice'`, where an empty string would be discarded as falsy. -/
theorem claim3_recommended_action (ctx : DecisionContext)
    (_h2 : 2 ≤ ctx.options.length)
    (hids : (ctx.options.map (fun o => o.id)).Nodup)
    (htext : ∀ o ∈ ctx.options, o.text ≠ "")
    (r : AIRanking) (hr : r ∈ (localAnalyzeDecision ctx).rankings)
    (hrank : r.rank = 1)
    (o : DecisionOption) (ho : o ∈ ctx.options) (hid : o.id = r.option_id) :
    (localAnalyzeDecision ctx).recommended_action = o.text := by
  have hhead := rank_one_is_head ctx hr hrank
  have hex : ∃ o' ∈ ctx.options, o'.id = r.option_id := by
    rw [localAnalyze_rankings_def] at hr
    obtain ⟨k, r₀, hk, rfl⟩ := mem_assignRanks hr
    have hmem := (List.mem_insertionSort scoreGE).mp (List.getElem?_mem hk)
    obtain ⟨o', ho', hid'⟩ := option_id_of_mem_normalize ctx hmem
    exact ⟨o', ho', hid'.symm⟩
  obtain ⟨o₀, hfind, hmem₀, hid₀⟩ := find?_id_exists r.option_id ctx.options hex
  have ho₀ : o₀ = o := by
    apply List.inj_on_of_nodup_map hids hmem₀ ho
    rw [hid₀, hid]
  rw [localAnalyze_recommended_def]
  simp only [hhead, hfind]
  rw [jsOrStr, if_neg (htext o₀ hmem₀), ho₀]

/-- Claim C3 witness: applied to the example context, with the rank-1 entry
and the matching option made concrete. -/
theorem claim3_recommended_action_witness :
    (localAnalyzeDecision ctxFinishProject).recommended_action =
      "Finish the project" :=
  claim3_recommended_action ctxFinishProject (by decide) (by decide)
    (by decide)
    ((localAnalyzeDecision ctxFinishProject).rankings.headD default)
    (by decide) (by decide)
    { id := "1", text := "Finish the project" } (by decide) (by decide)

theorem sortPair {a b : AIRanking} (h : b.score ≤ a.score) :
    sortByScoreDesc [a, b] = [a, b] := by
  rw [sortByScoreDesc]
  apply List.Sorted.insertionSort_eq
  refine List.sorted_cons.mpr ⟨?_, List.sorted_singleton b⟩
  intro c hc
  rcases List.mem_cons.mp hc with rfl | hc
  · exact h
  · cases hc

/-- Claim C6: for every context with exactly two options of identical text,
no pros/cons and no context keywords (non-work context, no title-word
boosts), whose raw score spread is below 15, the normalizer reassigns
the scores: option 1 (the weakly higher raw score, by the index bonus)
gets 85, option 2 gets 70 — 15 apart, preserving raw relative order —
and the ranks are 1 and 2 with no ties. -/
theorem claim6_identical_pair_respread (ctx : DecisionContext)
    (o1 o2 : DecisionOption) (hopts : ctx.options = [o1, o2])
    (htext : o2.text = o1.text)
    (hp1 : o1.pros = []) (hc1 : o1.cons = [])
    (hp2 : o2.pros = []) (hc2 : o2.cons = [])
    (_hwork : isWorkDecision ctx = false)
    (_htitle : ∀ w ∈ titleWords ctx,
      strIncludes (strTrim (strLower o1.text)) w = false)
    (hspread : rawSpread ctx < 15) :
    (localAnalyzeDecision ctx).rankings.map
        (fun r => (r.option_id, r.score, r.rank)) =
      [(o1.id, 85, 1), (o2.id, 70, 2)] := by
  simp only [rawSpread, hopts] at hspread
  rw [localAnalyze_rankings_def, hopts]
  have hle : (scoreOption ctx 1 o2).score ≤ (scoreOption ctx 0 o1).score := by
    show min 95 (max 20 (rawBase ctx o2.text o2.pros o2.cons + idxBonus 1)) ≤
      min 95 (max 20 (rawBase ctx o1.text o1.pros o1.cons + idxBonus 0))
    rw [htext, hp1, hc1, hp2, hc2]
    refine min_le_min (le_refl _) (max_le_max (le_refl _) ?_)
    have hidx : idxBonus 1 ≤ idxBonus 0 := by decide
    omega
  have hcond :
      listMax ((scoreOptions ctx 0 [o1, o2]).map (fun r => r.score)) -
          listMin ((scoreOptions ctx 0 [o1, o2]).map (fun r => r.score)) < 15 ∧
        (scoreOptions ctx 0 [o1, o2]).length > 1 := by
    refine ⟨hspread, ?_⟩
    rw [scoreOptions_length]
    norm_num
  have hnorm : normalizeScores (scoreOptions ctx 0 [o1, o2]) =
      respreadScores 0 (sortByScoreDesc (scoreOptions ctx 0 [o1, o2])) := by
    simp only [normalizeScores]
    rw [if_pos hcond]
  have hscored : scoreOptions ctx 0 [o1, o2] =
      [scoreOption ctx 0 o1, scoreOption ctx 1 o2] := rfl
  have hsort1 : sortByScoreDesc (scoreOptions ctx 0 [o1, o2]) =
      [scoreOption ctx 0 o1, scoreOption ctx 1 o2] := by
    rw [hscored]
    exact sortPair hle
  have hrespread :
      respreadScores 0 [scoreOption ctx 0 o1, scoreOption ctx 1 o2] =
        [{ scoreOption ctx 0 o1 with score := 85 },
         { scoreOption ctx 1 o2 with score := 70 }] := by
    have h0 : spreadScore 0 = 85 := by decide
    have h1 : spreadScore 1 = 70 := by decide
    simp [respreadScores, h0, h1]
  have hsort2 :
      sortByScoreDesc
          [{ scoreOption ctx 0 o1 with score := 85 },
           { scoreOption ctx 1 o2 with score := 70 }] =
        [{ scoreOption ctx 0 o1 with score := 85 },
         { scoreOption ctx 1 o2 with score := 70 }] := by
    apply sortPair
    show (70 : Int) ≤ 85
    norm_num
  rw [hnorm, hsort1, hrespread, hsort2]
  simp [assignRanks, scoreOption]

/-- Claim C6 witness: the theorem applied to `ctxSamePair` (raw scores 53
and 52, spread 1 < 15). -/
theorem claim6_identical_pair_respread_witness :
    (localAnalyzeDecision ctxSamePair).rankings.map
        (fun r => (r.option_id, r.score, r.rank)) =
      [("1", 85, 1), ("2", 70, 2)] :=
  claim6_identical_pair_respread ctxSamePair
    { id := "1", text := "aaa" } { id := "2", text := "aaa" }
    (by decide) (by decide) (by decide) (by decide) (by decide) (by decide)
    (by decide) (by decide) (by decide)

/-- Claim C5: the spec's example scenario.  For
`{title: "Finish project or sleep", category: "work", urgency: "high"}`
with options "Finish the project" and "Go to sleep" (no pros/cons),
option 1 scores 93 and option 2 scores 42 (strictly lower), option 1 is
ranked 1, option 1's risk level is "low", option 2's is "high", and the
time horizon is "short-term" for both; the recommended action is the
rank-1 option's text. -/
theorem claim5_example_scenario :
    (localAnalyzeDecision ctxFinishProject).rankings.map
        (fun r => (r.option_id, r.score, r.rank, r.risk_level, r.time_horizon)) =
      [("1", 93, 1, "low", "short-term"), ("2", 42, 2, "high", "short-term")] ∧
    (localAnalyzeDecision ctxFinishProject).recommended_action =
      "Finish the project" := by
  constructor
  · decide
  · decide

/-- Claim C9: for every context with at least six options whose raw score
spread is below 15, the reassignment formula clamps every option at
sorted position ≥ 4 (rank ≥ 5) to exactly score 25, so the entries with
rank 5 and rank 6 receive equal final scores and the 15-point pairwise
separation fails beyond the top five; the ranks themselves remain the
distinct values 1..N. -/
theorem claim9_floor_clamp (ctx : DecisionContext)
    (h6 : 6 ≤ ctx.options.length) (hspread : rawSpread ctx < 15) :
    (localAnalyzeDecision ctx).rankings.length = ctx.options.length ∧
    (localAnalyzeDecision ctx).rankings.map (fun r => r.rank) =
      List.range' 1 ctx.options.length ∧
    (∀ r ∈ (localAnalyzeDecision ctx).rankings, 5 ≤ r.rank → r.score = 25) ∧
    (∃ a ∈ (localAnalyzeDecision ctx).rankings, a.rank = 5 ∧ a.score = 25) ∧
    (∃ b ∈ (localAnalyzeDecision ctx).rankings, b.rank = 6 ∧ b.score = 25) := by
  simp only [rawSpread] at hspread
  have hcond :
      listMax ((scoreOptions ctx 0 ctx.options).map (fun r => r.score)) -
          listMin ((scoreOptions ctx 0 ctx.options).map (fun r => r.score)) <
          15 ∧
        (scoreOptions ctx 0 ctx.options).length > 1 := by
    refine ⟨hspread, ?_⟩
    rw [scoreOptions_length]
    omega
  have hnorm : normalizeScores (scoreOptions ctx 0 ctx.options) =
      respreadScores 0 (sortByScoreDesc (scoreOptions ctx 0 ctx.options)) := by
    simp only [normalizeScores]
    rw [if_pos hcond]
  have hsort2 :
      sortByScoreDesc
          (respreadScores 0 (sortByScoreDesc (scoreOptions ctx 0 ctx.options))) =
        respreadScores 0 (sortByScoreDesc (scoreOptions ctx 0 ctx.options)) := by
    rw [sortByScoreDesc]
    exact (respreadScores_sorted _ 0).insertionSort_eq
  have hR : (localAnalyzeDecision ctx).rankings =
      assignRanks 0
        (respreadScores 0 (sortByScoreDesc (scoreOptions ctx 0 ctx.options))) := by
    rw [localAnalyze_rankings_def, hnorm, hsort2]
  have hL1len :
      (sortByScoreDesc (scoreOptions ctx 0 ctx.options)).length =
        ctx.options.length := by
    rw [sortByScoreDesc, List.length_insertionSort, scoreOptions_length]
  have hkey : ∀ k, k < ctx.options.length →
      ∃ r ∈ (localAnalyzeDecision ctx).rankings,
        r.rank = k + 1 ∧ r.score = spreadScore k := by
    intro k hk
    have hk1 : k < (sortByScoreDesc (scoreOptions ctx 0 ctx.options)).length := by
      rw [hL1len]
      exact hk
    have hg1 : (sortByScoreDesc (scoreOptions ctx 0 ctx.options))[k]? =
        some ((sortByScoreDesc (scoreOptions ctx 0 ctx.options))[k]) :=
      List.getElem?_eq_getElem hk1
    have hg2 := respreadScores_getElem? 0
      (sortByScoreDesc (scoreOptions ctx 0 ctx.options)) k
    rw [hg1, Option.map_some'] at hg2
    have hg3 := assignRanks_getElem? 0
      (respreadScores 0 (sortByScoreDesc (scoreOptions ctx 0 ctx.options))) k
    rw [hg2, Option.map_some'] at hg3
    obtain ⟨r, hrk⟩ : ∃ r,
        (assignRanks 0
          (respreadScores 0
            (sortByScoreDesc (scoreOptions ctx 0 ctx.options))))[k]? =
          some r := ⟨_, hg3⟩
    rw [hg3] at hrk
    injection hrk with hrEq
    refine ⟨r, ?_, ?_, ?_⟩
    · rw [hR]
      exact List.getElem?_mem (hg3.trans (congrArg some hrEq))
    · rw [← hrEq]
      show 0 + k + 1 = k + 1
      omega
    · rw [← hrEq]
      show spreadScore (0 + k) = spreadScore k
      rw [Nat.zero_add]
  refine ⟨rankings_length ctx, rankings_map_rank ctx, ?_, ?_, ?_⟩
  · intro r hr h5
    rw [hR] at hr
    obtain ⟨k, r₀, hk, rfl⟩ := mem_assignRanks hr
    have hg2 := respreadScores_getElem? 0
      (sortByScoreDesc (scoreOptions ctx 0 ctx.options)) k
    rw [hg2] at hk
    cases hL : (sortByScoreDesc (scoreOptions ctx 0 ctx.options))[k]? with
    | none =>
      rw [hL] at hk
      simp at hk
    | some r₁ =>
      rw [hL, Option.map_some'] at hk
      injection hk with h
      have hk4 : 4 ≤ k := by
        have h51 : 5 ≤ 0 + k + 1 := h5
        omega
      show r₀.score = 25
      rw [← h]
      show spreadScore (0 + k) = 25
      rw [Nat.zero_add]
      exact spreadScore_eq_25 hk4
  · obtain ⟨r, hmem, hrank, hsc⟩ := hkey 4 (by omega)
    refine ⟨r, hmem, hrank, ?_⟩
    rw [hsc]
    decide
  · obtain ⟨r, hmem, hrank, hsc⟩ := hkey 5 (by omega)
    refine ⟨r, hmem, hrank, ?_⟩
    rw [hsc]
    decide

/-- Claim C9 witness: in `ctxSixSame` (raw spread 3 < 15), the entries at
positions 4 and 5 of the rankings both carry score 25. -/
theorem claim9_floor_clamp_witness :
    (localAnalyzeDecision ctxSixSame).rankings.length = 6 ∧
    ((localAnalyzeDecision ctxSixSame).rankings.getD 4 default).score = 25 ∧
    ((localAnalyzeDecision ctxSixSame).rankings.getD 5 default).score = 25 := by
  obtain ⟨h1, _, h3, _, _⟩ :=
    claim9_floor_clamp ctxSixSame (by decide) (by decide)
  exact ⟨h1, h3 _ (by decide) (by decide), h3 _ (by decide) (by decide)⟩

/-! ## Weekly-metrics claims -/

theorem fiveCritical_daily :
    fatigueDailyComponent fiveCriticalDecisions = 1 := by
  rw [fatigueDailyComponent, avgDailyDecisions,
    show (dailyCounts fiveCriticalDecisions).sum = 5 from by decide,
    show (decisionDays fiveCriticalDecisions).length = 1 from by decide]
  norm_num [min_def]

theorem fiveCritical_urgency :
    fatigueUrgencyComponent fiveCriticalDecisions = 5 / 2 := by
  rw [fatigueUrgencyComponent,
    show highUrgencyCount fiveCriticalDecisions = 5 from by decide,
    show fiveCriticalDecisions.length = 5 from by decide]
  norm_num

theorem fiveCritical_timed :
    timedDecisions fiveCriticalDecisions = fiveCriticalDecisions := by
  have h900 : jsTruthyNum (some (900 : ℚ)) = true := by
    simp [jsTruthyNum]
  rw [timedDecisions]
  simp [fiveCriticalDecisions, List.filter_cons, h900]

theorem fiveCritical_total :
    totalTimeToDecide fiveCriticalDecisions = 4500 := by
  rw [totalTimeToDecide, fiveCritical_timed]
  show ((fiveCriticalDecisions.map fun d => d.time_to_decide.getD 0).sum) = 4500
  rw [show fiveCriticalDecisions.map (fun d => d.time_to_decide.getD 0) =
      [(900 : ℚ), 900, 900, 900, 900] from by
    simp [fiveCriticalDecisions]]
  norm_num

theorem fiveCritical_time :
    fatigueTimeComponent fiveCriticalDecisions = 5 / 2 := by
  rw [fatigueTimeComponent, avgTimeToDecide, fiveCritical_timed,
    fiveCritical_total, show fiveCriticalDecisions.length = 5 from by decide]
  norm_num [min_def]

theorem fiveCritical_incomplete :
    fatigueIncompleteComponent fiveCriticalDecisions = 5 / 2 := by
  rw [fatigueIncompleteComponent,
    show incompleteCount fiveCriticalDecisions = 5 from by decide,
    show fiveCriticalDecisions.length = 5 from by decide]
  norm_num

theorem fiveCritical_score :
    calculateFatigueScore fiveCriticalDecisions = 17 / 2 := by
  rw [calculateFatigueScore,
    if_neg (by decide : ¬fiveCriticalDecisions = []), fiveCritical_daily,
    fiveCritical_urgency, fiveCritical_time, fiveCritical_incomplete]
  norm_num [min_def]

/-- Claim C7, counterexample.  On the spec's own example input the
daily-volume component is `min(5/5, 2.5) = 1`, which is 1.5 below its
2.5 cap (five decisions on one day give an average of 5/day, while the
cap needs 12.5/day): it neither hits nor approaches the cap; the total
is 8.5, 1.5 below 10. -/
theorem claim7_counterexample :
    fatigueDailyComponent fiveCriticalDecisions = 1 ∧
    fatigueDailyComponent fiveCriticalDecisions < 5 / 2 - 1 ∧
    calculateFatigueScore fiveCriticalDecisions = 17 / 2 := by
  refine ⟨fiveCritical_daily, ?_, fiveCritical_score⟩
  rw [fiveCritical_daily]
  norm_num

/-- Claim C7 (amended): on the example input the urgency, decision-time and
incompleteness components each hit their 2.5 cap, the daily-volume
component contributes only 1.0 (it would need 12.5 decisions/day to cap),
and the total fatigue score is 1 + 2.5 + 2.5 + 2.5 = 8.5, which does not
exceed 10. -/
theorem claim7_fatigue_example :
    fatigueUrgencyComponent fiveCriticalDecisions = 5 / 2 ∧
    fatigueTimeComponent fiveCriticalDecisions = 5 / 2 ∧
    fatigueIncompleteComponent fiveCriticalDecisions = 5 / 2 ∧
    fatigueDailyComponent fiveCriticalDecisions = 1 ∧
    calculateFatigueScore fiveCriticalDecisions = 17 / 2 ∧
    calculateFatigueScore fiveCriticalDecisions < 10 := by
  refine ⟨fiveCritical_urgency, fiveCritical_time, fiveCritical_incomplete,
    fiveCritical_daily, fiveCritical_score, ?_⟩
  rw [fiveCritical_score]
  norm_num

theorem bestCategory_of_all_zero (cats : List (String × CatStats))
    (hzero : ∀ p ∈ cats, p.2.positive = 0) :
    bestCategory cats = ("none", ⟨0, 0⟩) := by
  rw [bestCategory]
  induction cats with
  | nil => rfl
  | cons c cats ih =>
    rw [List.foldl_cons]
    have hc : c.2.positive = 0 := hzero c (List.mem_cons_self c cats)
    have hstep : bestCategoryStep ("none", ⟨0, 0⟩) c = ("none", ⟨0, 0⟩) := by
      simp [bestCategoryStep, hc]
    rw [hstep]
    exact ih (fun p hp => hzero p (List.mem_cons_of_mem c hp))

/-- Claim C8, counterexample.  With a single category "work" having 5
decisions and 0 positive outcomes (total ≥ 3), the fold's strict `>`
never displaces the sentinel, `bestCategory` stays `("none", {0, 0})`,
and no category insight at all is emitted — no zero-rate category is
"selected and reported". -/
theorem claim8_counterexample :
    bestCategory [("work", ⟨5, 0⟩)] = ("none", ⟨0, 0⟩) ∧
    generateInsightsFromMetrics
        { successRate := 6 / 10, fatigueScore := 0, biasAnalysis := [],
          categoryPerformance := [("work", ⟨5, 0⟩)] } = [] := by
  have h1 : bestCategory [("work", (⟨5, 0⟩ : CatStats))] = ("none", ⟨0, 0⟩) := by
    rw [bestCategory, List.foldl_cons, List.foldl_nil]
    norm_num [bestCategoryStep]
  refine ⟨h1, ?_⟩
  rw [generateInsightsFromMetrics]
  norm_num [h1]

/-- Claim C8 (amended): when every category in `categoryPerformance` has
zero positive outcomes, every candidate rate equals the sentinel's rate
0, the strict comparison never replaces the sentinel, `bestCategory`
remains `("none", {total: 0, positive: 0})`, and consequently no
best-category insight is emitted (no insight of type "category" appears
in the output). -/
theorem claim8_all_zero_no_category_insight (m : UserMetricsM)
    (hzero : ∀ p ∈ m.categoryPerformance, p.2.positive = 0) :
    bestCategory m.categoryPerformance = ("none", ⟨0, 0⟩) ∧
    ∀ ins ∈ generateInsightsFromMetrics m, ins.insight_type ≠ "category" := by
  have hbc := bestCategory_of_all_zero m.categoryPerformance hzero
  refine ⟨hbc, ?_⟩
  intro ins hins
  rw [generateInsightsFromMetrics] at hins
  rcases List.mem_append.mp hins with hABC | hD
  · rcases List.mem_append.mp hABC with hAB | hC
    · rcases List.mem_append.mp hAB with hA | hB
      · split at hA
        · rw [List.mem_singleton] at hA
          rw [hA]
          decide
        · split at hA
          · rw [List.mem_singleton] at hA
            rw [hA]
            decide
          · cases hA
      · split at hB
        · rw [List.mem_singleton] at hB
          rw [hB]
          decide
        · cases hB
    · obtain ⟨p, -, hp⟩ := List.mem_map.mp hC
      rw [← hp]
      decide
  · rw [hbc] at hD
    simp at hD

/-- Claim C8 witness: the amended statement applied to a metrics record
with one all-negative category, instantiated at the one insight that is
emitted (the low-success alert). -/
theorem claim8_all_zero_witness :
    bestCategory [("health", (⟨4, 0⟩ : CatStats))] = ("none", ⟨0, 0⟩) ∧
    (⟨"weekly", none, 8⟩ : InsightM).insight_type ≠ "category" := by
  have hbc : bestCategory [("health", (⟨4, 0⟩ : CatStats))] =
      ("none", ⟨0, 0⟩) := by
    rw [bestCategory, List.foldl_cons, List.foldl_nil]
    norm_num [bestCategoryStep]
  have hgen : generateInsightsFromMetrics
      { successRate := 0, fatigueScore := 0, biasAnalysis := [],
        categoryPerformance := [("health", ⟨4, 0⟩)] } =
      [⟨"weekly", none, 8⟩] := by
    rw [generateInsightsFromMetrics]
    norm_num [hbc]
  obtain ⟨h1, h2⟩ := claim8_all_zero_no_category_insight
    { successRate := 0, fatigueScore := 0, biasAnalysis := [],
      categoryPerformance := [("health", ⟨4, 0⟩)] } (by decide)
  refine ⟨h1, h2 ⟨"weekly", none, 8⟩ ?_⟩
  rw [hgen]
  exact List.mem_singleton.mpr rfl

/-! ## C10: a recorded `time_to_decide` of 0 behaves like a missing one -/

theorem timeEquiv_truthy {d₁ d₂ : Decision} (h : decisionTimeEquiv d₁ d₂) :
    jsTruthyNum d₁.time_to_decide = jsTruthyNum d₂.time_to_decide ∧
      (jsTruthyNum d₁.time_to_decide = true →
        d₁.time_to_decide = d₂.time_to_decide) := by
  obtain ⟨-, -, -, -, -, -, -, -, ht⟩ := h
  rcases ht with heq | ⟨h1, h2⟩ | ⟨h1, h2⟩
  · exact ⟨by rw [heq], fun _ => heq⟩
  · rw [h1, h2]
    refine ⟨by simp [jsTruthyNum], ?_⟩
    intro hfalse
    simp [jsTruthyNum] at hfalse
  · rw [h1, h2]
    refine ⟨by simp [jsTruthyNum], ?_⟩
    intro hfalse
    simp [jsTruthyNum] at hfalse

theorem forall₂_day_map {l₁ l₂ : List Decision}
    (h : List.Forall₂ decisionTimeEquiv l₁ l₂) :
    l₁.map (fun d => isoDay d.created_at) =
      l₂.map (fun d => isoDay d.created_at) := by
  induction h with
  | nil => rfl
  | cons hd _ ih =>
    obtain ⟨-, -, -, -, -, -, -, hc, -⟩ := hd
    simp [ih, hc]

theorem forall₂_filter_length {p : Decision → Bool}
    (hp : ∀ d₁ d₂, decisionTimeEquiv d₁ d₂ → p d₁ = p d₂) :
    ∀ {l₁ l₂ : List Decision}, List.Forall₂ decisionTimeEquiv l₁ l₂ →
      (l₁.filter p).length = (l₂.filter p).length := by
  intro l₁ l₂ h
  induction h with
  | nil => rfl
  | @cons a b t₁ t₂ hd _ ih =>
    rw [List.filter_cons, List.filter_cons, hp a b hd]
    split
    · simp [ih]
    · exact ih

theorem forall₂_time_sums {l₁ l₂ : List Decision}
    (h : List.Forall₂ decisionTimeEquiv l₁ l₂) :
    totalTimeToDecide l₁ = totalTimeToDecide l₂ ∧
      (timedDecisions l₁).length = (timedDecisions l₂).length := by
  induction h with
  | nil => exact ⟨rfl, rfl⟩
  | @cons a b t₁ t₂ hd _ ih =>
    obtain ⟨hT, hL⟩ := ih
    obtain ⟨htruthy, heqtime⟩ := timeEquiv_truthy hd
    simp only [totalTimeToDecide, timedDecisions, List.filter_cons] at hT hL ⊢
    rw [← htruthy]
    by_cases hj : jsTruthyNum a.time_to_decide = true
    · rw [if_pos hj, if_pos hj]
      simp only [List.map_cons, List.sum_cons, List.length_cons]
      rw [heqtime hj, hT, hL]
      exact ⟨rfl, rfl⟩
    · rw [if_neg hj, if_neg hj]
      exact ⟨hT, hL⟩

theorem isLongDecision_congr {d₁ d₂ : Decision}
    (h : decisionTimeEquiv d₁ d₂) :
    isLongDecision d₁ = isLongDecision d₂ := by
  obtain ⟨htruthy, heqtime⟩ := timeEquiv_truthy h
  by_cases hj : jsTruthyNum d₁.time_to_decide = true
  · rw [isLongDecision, isLongDecision, heqtime hj]
  · have hj1 : jsTruthyNum d₁.time_to_decide = false := by
      revert hj
      cases jsTruthyNum d₁.time_to_decide <;> simp
    have hj2 : jsTruthyNum d₂.time_to_decide = false := by
      rw [← htruthy]
      exact hj1
    rw [isLongDecision, isLongDecision, hj1, hj2]
    simp

/-- Claim C10: `calculateFatigueScore` and `analyzeBiases` test truthiness
of `time_to_decide`, so a recorded 0 behaves exactly like a missing
value: for any two decision lists that agree except for trading `null`
against 0 in `time_to_decide` fields, the fatigue score and every bias
fraction are unchanged. -/
theorem claim10_zero_time_as_null (ds₁ ds₂ : List Decision)
    (h : List.Forall₂ decisionTimeEquiv ds₁ ds₂) :
    calculateFatigueScore ds₁ = calculateFatigueScore ds₂ ∧
      analyzeBiases ds₁ = analyzeBiases ds₂ := by
  have hlen : ds₁.length = ds₂.length := h.length_eq
  have hdays := forall₂_day_map h
  have hurg : (ds₁.filter
        (fun d => d.urgency == "high" || d.urgency == "critical")).length =
      (ds₂.filter
        (fun d => d.urgency == "high" || d.urgency == "critical")).length := by
    refine forall₂_filter_length ?_ h
    intro d₁ d₂ hd
    obtain ⟨-, -, hu, -, -, -, -, -, -⟩ := hd
    rw [hu]
  have hinc : (ds₁.filter (fun d => !d.is_completed)).length =
      (ds₂.filter (fun d => !d.is_completed)).length := by
    refine forall₂_filter_length ?_ h
    intro d₁ d₂ hd
    obtain ⟨-, -, -, -, -, -, hco, -, -⟩ := hd
    rw [hco]
  obtain ⟨hTT, hTL⟩ := forall₂_time_sums h
  have hfirst : (ds₁.filter chosenIsFirst).length =
      (ds₂.filter chosenIsFirst).length := by
    refine forall₂_filter_length ?_ h
    intro d₁ d₂ hd
    obtain ⟨-, -, -, hop, hch, -, -, -, -⟩ := hd
    rw [chosenIsFirst, chosenIsFirst, hop, hch]
  have hlast : (ds₁.filter chosenIsLast).length =
      (ds₂.filter chosenIsLast).length := by
    refine forall₂_filter_length ?_ h
    intro d₁ d₂ hd
    obtain ⟨-, -, -, hop, hch, -, -, -, -⟩ := hd
    rw [chosenIsLast, chosenIsLast, hop, hch]
  have hover : (ds₁.filter isOverconfident).length =
      (ds₂.filter isOverconfident).length := by
    refine forall₂_filter_length ?_ h
    intro d₁ d₂ hd
    obtain ⟨-, -, -, -, -, hcf, -, -, -⟩ := hd
    rw [isOverconfident, isOverconfident, hcf]
  have hlong : (ds₁.filter isLongDecision).length =
      (ds₂.filter isLongDecision).length :=
    forall₂_filter_length (fun d₁ d₂ hd => isLongDecision_congr hd) h
  constructor
  · rw [calculateFatigueScore, calculateFatigueScore]
    by_cases hnil : ds₁ = []
    · have hnil2 : ds₂ = [] := by
        rw [hnil] at hlen
        exact List.length_eq_zero.mp hlen.symm
      rw [if_pos hnil, if_pos hnil2]
    · have hnil2 : ¬ds₂ = [] := by
        intro hn
        rw [hn] at hlen
        exact hnil (List.length_eq_zero.mp hlen)
      rw [if_neg hnil, if_neg hnil2]
      have hdc : fatigueDailyComponent ds₁ = fatigueDailyComponent ds₂ := by
        simp only [fatigueDailyComponent, avgDailyDecisions, dailyCounts,
          decisionDays, hdays]
      have huc : fatigueUrgencyComponent ds₁ = fatigueUrgencyComponent ds₂ := by
        simp only [fatigueUrgencyComponent, highUrgencyCount, hurg, hlen]
      have htc : fatigueTimeComponent ds₁ = fatigueTimeComponent ds₂ := by
        simp only [fatigueTimeComponent, avgTimeToDecide, hTT, hTL]
      have hic : fatigueIncompleteComponent ds₁ =
          fatigueIncompleteComponent ds₂ := by
        simp only [fatigueIncompleteComponent, incompleteCount, hinc, hlen]
      rw [hdc, huc, htc, hic]
  · rw [analyzeBiases, analyzeBiases]
    simp only [hlen, hfirst, hlast, hover, hlong]

/-- Claim C10 witness: the theorem applied to a singleton list with `null`
time against the same list with time 0. -/
theorem claim10_zero_time_as_null_witness :
    calculateFatigueScore [decisionTimeNone] =
      calculateFatigueScore [decisionTimeZero] ∧
    analyzeBiases [decisionTimeNone] = analyzeBiases [decisionTimeZero] :=
  claim10_zero_time_as_null [decisionTimeNone] [decisionTimeZero]
    (List.Forall₂.cons
      ⟨rfl, rfl, rfl, rfl, rfl, rfl, rfl, rfl, Or.inr (Or.inl ⟨rfl, rfl⟩)⟩
      List.Forall₂.nil)

end DailyWhy
